import Mathlib

/-!
Verification of the geometric core of the skill-tree stat plotter
(`src/main.rs`).  The Rust code works on `f32`; the embedding uses `ℝ`
as the idealized semantics of that arithmetic, translating each source
function one-to-one.  Randomness (`rng.gen_range`) is modelled by
passing the sampled values as explicit parameters: `gen_range(a..b)`
on floats yields `a + u * (b - a)` for a uniform draw `u ∈ [0,1)`.
-/

noncomputable section

/-- Constant `MAX_STAT_VAL` from the source. -/
def MAX_STAT_VAL : ℝ := 100

/-- Constant `MIN_STAT_VAL` from the source. -/
def MIN_STAT_VAL : ℝ := 10

/-- Constant `MAX_TOTAL_POINTS` from the source. -/
def MAX_TOTAL_POINTS : ℝ := 120

/-- Landmark angle of the strength axis, `135.0 * (PI / 180.0)`. -/
def ANG_STR_RED : ℝ := 135 * (Real.pi / 180)

/-- Landmark angle of the dexterity axis, `45.0 * (PI / 180.0)`. -/
def ANG_DEX_GREEN : ℝ := 45 * (Real.pi / 180)

/-- Landmark angle of the intelligence axis, `270.0 * (PI / 180.0)`. -/
def ANG_INT_BLUE : ℝ := 270 * (Real.pi / 180)

/-- The `PerkPoint` struct from the source. -/
structure PerkPoint where
  name : String
  description : String
  angle : ℝ
  radius_val : ℝ
  cost : ℝ

/-- The three axis values of `StatApp` (the spec's BuildState). -/
structure BuildState where
  strength : ℝ
  intelligence : ℝ
  dexterity : ℝ

/-- Denominator of the elliptical radius formula:
`((v2 * phi.cos()).powi(2) + (v1 * phi.sin()).powi(2)).sqrt()` with
`phi = t_sector * (PI / 2.0)`. -/
def ellipse_denom (v1 v2 t_sector : ℝ) : ℝ :=
  Real.sqrt ((v2 * Real.cos (t_sector * (Real.pi / 2))) ^ 2 +
    (v1 * Real.sin (t_sector * (Real.pi / 2))) ^ 2)

/-- `StatApp::calculate_ellipse_radius` from the source. -/
def calculate_ellipse_radius (v1 v2 t_sector : ℝ) : ℝ :=
  if v1 < 1 ∧ v2 < 1 then 0
  else (v1 * v2) / ellipse_denom v1 v2 t_sector

/-- Euclidean remainder on the reals, the semantics of `f32::rem_euclid`
for a positive modulus. -/
def remEuclid (x y : ℝ) : ℝ := x - y * ⌊x / y⌋

/-- The normalized degree measure `angle_rad.to_degrees().rem_euclid(360.0)`
computed at the top of `get_current_radius_at_angle`. -/
def degNorm (angle_rad : ℝ) : ℝ := remEuclid (angle_rad * (180 / Real.pi)) 360

/-- The `(v1, v2, t_sector)` triple selected by the if-chain inside
`get_current_radius_at_angle`. -/
def sectorData (s : BuildState) (angle_rad : ℝ) : ℝ × ℝ × ℝ :=
  if 45 ≤ degNorm angle_rad ∧ degNorm angle_rad < 135 then
    (s.dexterity, s.strength,
      (angle_rad - ANG_DEX_GREEN) / (ANG_STR_RED - ANG_DEX_GREEN))
  else if 135 ≤ degNorm angle_rad ∧ degNorm angle_rad < 270 then
    (s.strength, s.intelligence,
      (angle_rad - ANG_STR_RED) / (ANG_INT_BLUE - ANG_STR_RED))
  else
    (s.intelligence, s.dexterity,
      ((if angle_rad < ANG_INT_BLUE then angle_rad + 2 * Real.pi else angle_rad) -
          ANG_INT_BLUE) /
        (ANG_DEX_GREEN + 2 * Real.pi - ANG_INT_BLUE))

/-- `StatApp::get_current_radius_at_angle` from the source. -/
def get_current_radius_at_angle (s : BuildState) (angle_rad : ℝ) : ℝ :=
  calculate_ellipse_radius (sectorData s angle_rad).1 (sectorData s angle_rad).2.1
    (sectorData s angle_rad).2.2

/-- The unlock test from `StatApp::update`:
`perk.radius_val <= self.get_current_radius_at_angle(perk.angle) + 0.5`. -/
def is_unlocked (s : BuildState) (perk : PerkPoint) : Prop :=
  perk.radius_val ≤ get_current_radius_at_angle s perk.angle + 0.5

/- Basic facts about the landmark constants and `remEuclid`. -/

lemma ANG_DEX_GREEN_eq : ANG_DEX_GREEN = Real.pi / 4 := by
  unfold ANG_DEX_GREEN; ring

lemma ANG_STR_RED_eq : ANG_STR_RED = 3 * Real.pi / 4 := by
  unfold ANG_STR_RED; ring

lemma ANG_INT_BLUE_eq : ANG_INT_BLUE = 3 * Real.pi / 2 := by
  unfold ANG_INT_BLUE; ring

lemma remEuclid_eq_self {x y : ℝ} (h0 : 0 ≤ x) (hy : 0 < y) (hxy : x < y) :
    remEuclid x y = x := by
  unfold remEuclid
  have hfloor : ⌊x / y⌋ = 0 := by
    rw [Int.floor_eq_zero_iff]
    constructor
    · exact div_nonneg h0 hy.le
    · rw [div_lt_one hy]; exact hxy
  rw [hfloor]
  push_cast
  ring

lemma remEuclid_eq_sub {x y : ℝ} (hy : 0 < y) (h1 : y ≤ x) (h2 : x < 2 * y) :
    remEuclid x y = x - y := by
  unfold remEuclid
  have hfloor : ⌊x / y⌋ = 1 := by
    rw [Int.floor_eq_iff]
    constructor
    · push_cast; rw [le_div_iff hy]; linarith
    · push_cast; rw [div_lt_iff hy]; linarith
  rw [hfloor]
  push_cast
  ring

lemma deg_of_rad_le {a θ : ℝ} (h : a ≤ θ * (180 / Real.pi)) :
    a * Real.pi / 180 ≤ θ := by
  have hπ : (0 : ℝ) < Real.pi := Real.pi_pos
  have hpos : (0 : ℝ) < Real.pi / 180 := by positivity
  have h2 := mul_le_mul_of_nonneg_right h hpos.le
  have h3 : θ * (180 / Real.pi) * (Real.pi / 180) = θ := by
    field_simp
  rw [h3] at h2
  calc a * Real.pi / 180 = a * (Real.pi / 180) := by ring
    _ ≤ θ := h2

lemma deg_of_rad_lt {a θ : ℝ} (h : θ * (180 / Real.pi) < a) :
    θ < a * Real.pi / 180 := by
  have hπ : (0 : ℝ) < Real.pi := Real.pi_pos
  have hpos : (0 : ℝ) < Real.pi / 180 := by positivity
  have h2 := mul_lt_mul_of_pos_right h hpos
  have h3 : θ * (180 / Real.pi) * (Real.pi / 180) = θ := by
    field_simp
  rw [h3] at h2
  calc θ < a * (Real.pi / 180) := h2
    _ = a * Real.pi / 180 := by ring

lemma rad_le_deg {a θ : ℝ} (h : a * Real.pi / 180 ≤ θ) :
    a ≤ θ * (180 / Real.pi) := by
  have hπ : (0 : ℝ) < Real.pi := Real.pi_pos
  have hpos : (0 : ℝ) < 180 / Real.pi := by positivity
  have h2 := mul_le_mul_of_nonneg_right h hpos.le
  have h3 : a * Real.pi / 180 * (180 / Real.pi) = a := by
    field_simp
  rw [h3] at h2
  exact h2

lemma rad_lt_deg {a θ : ℝ} (h : θ < a * Real.pi / 180) :
    θ * (180 / Real.pi) < a := by
  have hπ : (0 : ℝ) < Real.pi := Real.pi_pos
  have hpos : (0 : ℝ) < 180 / Real.pi := by positivity
  have h2 := mul_lt_mul_of_pos_right h hpos
  have h3 : a * Real.pi / 180 * (180 / Real.pi) = a := by
    field_simp
  rw [h3] at h2
  exact h2

/-- On `[0, 2π)` the degree normalization is just the raw degree measure. -/
lemma degNorm_eq_self {θ : ℝ} (h0 : 0 ≤ θ) (h2 : θ < 2 * Real.pi) :
    degNorm θ = θ * (180 / Real.pi) := by
  have hπ : (0 : ℝ) < Real.pi := Real.pi_pos
  unfold degNorm
  apply remEuclid_eq_self
  · positivity
  · norm_num
  · have : θ * (180 / Real.pi) < 360 * Real.pi / 180 * (180 / Real.pi) := by
      apply mul_lt_mul_of_pos_right _ (by positivity)
      calc θ < 2 * Real.pi := h2
        _ = 360 * Real.pi / 180 := by ring
    calc θ * (180 / Real.pi) < 360 * Real.pi / 180 * (180 / Real.pi) := this
      _ = 360 := by field_simp

/-- On `[2π, 4π)` the degree normalization subtracts one full turn. -/
lemma degNorm_eq_sub {θ : ℝ} (h0 : 2 * Real.pi ≤ θ) (h2 : θ < 4 * Real.pi) :
    degNorm θ = θ * (180 / Real.pi) - 360 := by
  have hπ : (0 : ℝ) < Real.pi := Real.pi_pos
  unfold degNorm
  apply remEuclid_eq_sub
  · norm_num
  · apply rad_le_deg; linarith [show (360 : ℝ) * Real.pi / 180 = 2 * Real.pi by ring]
  · have h4 : θ < 720 * Real.pi / 180 := by nlinarith
    have := rad_lt_deg h4
    linarith

/- Pointwise facts about `calculate_ellipse_radius`. -/

lemma ellipse_nonneg (v1 v2 t : ℝ) (h1 : 0 ≤ v1) (h2 : 0 ≤ v2) :
    0 ≤ calculate_ellipse_radius v1 v2 t := by
  unfold calculate_ellipse_radius
  split
  · exact le_refl 0
  · exact div_nonneg (mul_nonneg h1 h2) (Real.sqrt_nonneg _)

lemma ellipse_at_zero (v1 v2 : ℝ) (hg : ¬(v1 < 1 ∧ v2 < 1)) (h2 : 0 < v2) :
    calculate_ellipse_radius v1 v2 0 = v1 := by
  unfold calculate_ellipse_radius ellipse_denom
  rw [if_neg hg, zero_mul, Real.cos_zero, Real.sin_zero]
  have hx : (v2 * 1) ^ 2 + (v1 * 0) ^ 2 = v2 ^ 2 := by ring
  rw [hx, Real.sqrt_sq h2.le, mul_div_assoc, div_self h2.ne', mul_one]

lemma ellipse_at_one (v1 v2 : ℝ) (hg : ¬(v1 < 1 ∧ v2 < 1)) (h1 : 0 < v1) :
    calculate_ellipse_radius v1 v2 1 = v2 := by
  unfold calculate_ellipse_radius ellipse_denom
  rw [if_neg hg, one_mul, Real.cos_pi_div_two, Real.sin_pi_div_two]
  have hx : (v2 * 0) ^ 2 + (v1 * 1) ^ 2 = v1 ^ 2 := by ring
  rw [hx, Real.sqrt_sq h1.le]
  rw [mul_comm v1 v2, mul_div_assoc, div_self h1.ne', mul_one]

lemma ellipse_circle (v t : ℝ) (hv : 1 ≤ v) :
    calculate_ellipse_radius v v t = v := by
  have hv0 : (0 : ℝ) < v := by linarith
  unfold calculate_ellipse_radius ellipse_denom
  rw [if_neg (by push_neg; intro h; linarith)]
  have hx : (v * Real.cos (t * (Real.pi / 2))) ^ 2 +
      (v * Real.sin (t * (Real.pi / 2))) ^ 2 = v ^ 2 := by
    linear_combination v ^ 2 * Real.sin_sq_add_cos_sq (t * (Real.pi / 2))
  rw [hx, Real.sqrt_sq hv0.le]
  field_simp

/-- With both values at least 1 the guard is skipped and the radius takes the
square-root form `√(v1²v2² / D)`. -/
lemma ellipse_sqrt_form (v1 v2 t : ℝ) (h1 : 0 ≤ v1) (h2 : 0 ≤ v2)
    (hg : ¬(v1 < 1 ∧ v2 < 1)) :
    calculate_ellipse_radius v1 v2 t =
      Real.sqrt (v1 ^ 2 * v2 ^ 2 /
        ((v2 * Real.cos (t * (Real.pi / 2))) ^ 2 +
          (v1 * Real.sin (t * (Real.pi / 2))) ^ 2)) := by
  unfold calculate_ellipse_radius ellipse_denom
  rw [if_neg hg, Real.sqrt_div (by positivity)]
  congr 1
  rw [show v1 ^ 2 * v2 ^ 2 = (v1 * v2) ^ 2 by ring, Real.sqrt_sq (by positivity)]

/-- With both values at least 10 the denominator square is at least 100. -/
lemma ellipse_denom_sq_ge (v1 v2 t : ℝ) (h1 : 10 ≤ v1) (h2 : 10 ≤ v2) :
    100 ≤ (v2 * Real.cos (t * (Real.pi / 2))) ^ 2 +
      (v1 * Real.sin (t * (Real.pi / 2))) ^ 2 := by
  have hcs := Real.sin_sq_add_cos_sq (t * (Real.pi / 2))
  have a1 : 100 * Real.cos (t * (Real.pi / 2)) ^ 2 ≤
      v2 ^ 2 * Real.cos (t * (Real.pi / 2)) ^ 2 := by
    apply mul_le_mul_of_nonneg_right _ (sq_nonneg _)
    nlinarith
  have a2 : 100 * Real.sin (t * (Real.pi / 2)) ^ 2 ≤
      v1 ^ 2 * Real.sin (t * (Real.pi / 2)) ^ 2 := by
    apply mul_le_mul_of_nonneg_right _ (sq_nonneg _)
    nlinarith
  nlinarith [a1, a2]

/-- Monotonicity of the radius formula in both axis values (for values in the
legal stat range, any parameter `t`). -/
lemma ellipse_mono (v1 v2 w1 w2 t : ℝ) (h1 : 10 ≤ v1) (h2 : 10 ≤ v2)
    (hw1 : v1 ≤ w1) (hw2 : v2 ≤ w2) :
    calculate_ellipse_radius v1 v2 t ≤ calculate_ellipse_radius w1 w2 t := by
  have hg : ¬(v1 < 1 ∧ v2 < 1) := by push_neg; intro h; linarith
  have hg' : ¬(w1 < 1 ∧ w2 < 1) := by push_neg; intro h; linarith
  rw [ellipse_sqrt_form v1 v2 t (by linarith) (by linarith) hg,
    ellipse_sqrt_form w1 w2 t (by linarith) (by linarith) hg']
  apply Real.sqrt_le_sqrt
  have hD := ellipse_denom_sq_ge v1 v2 t h1 h2
  have hD' := ellipse_denom_sq_ge w1 w2 t (by linarith) (by linarith)
  rw [div_le_div_iff (by linarith) (by linarith)]
  have hv1sq : v1 ^ 2 ≤ w1 ^ 2 := by nlinarith
  have hv2sq : v2 ^ 2 ≤ w2 ^ 2 := by nlinarith
  have e1 : v1 ^ 2 * (v2 ^ 2 * w2 ^ 2 * Real.cos (t * (Real.pi / 2)) ^ 2) ≤
      w1 ^ 2 * (v2 ^ 2 * w2 ^ 2 * Real.cos (t * (Real.pi / 2)) ^ 2) := by
    apply mul_le_mul_of_nonneg_right hv1sq
    positivity
  have e2 : v2 ^ 2 * (v1 ^ 2 * w1 ^ 2 * Real.sin (t * (Real.pi / 2)) ^ 2) ≤
      w2 ^ 2 * (v1 ^ 2 * w1 ^ 2 * Real.sin (t * (Real.pi / 2)) ^ 2) := by
    apply mul_le_mul_of_nonneg_right hv2sq
    positivity
  nlinarith [e1, e2]

/- Branch characterizations of `sectorData` for angles in `[0°, 405°)`,
the range of every angle the program ever passes in. -/

lemma sectorData_low (s : BuildState) {θ : ℝ} (h1 : Real.pi / 4 ≤ θ)
    (h2 : θ < 3 * Real.pi / 4) :
    sectorData s θ = (s.dexterity, s.strength,
      (θ - ANG_DEX_GREEN) / (ANG_STR_RED - ANG_DEX_GREEN)) := by
  have hπ : (0 : ℝ) < Real.pi := Real.pi_pos
  have hdeg : degNorm θ = θ * (180 / Real.pi) :=
    degNorm_eq_self (by linarith) (by linarith)
  have hA : 45 ≤ degNorm θ ∧ degNorm θ < 135 := by
    rw [hdeg]
    constructor
    · exact rad_le_deg (by linarith)
    · exact rad_lt_deg (by linarith)
  unfold sectorData
  rw [if_pos hA]

lemma sectorData_mid (s : BuildState) {θ : ℝ} (h1 : 3 * Real.pi / 4 ≤ θ)
    (h2 : θ < 3 * Real.pi / 2) :
    sectorData s θ = (s.strength, s.intelligence,
      (θ - ANG_STR_RED) / (ANG_INT_BLUE - ANG_STR_RED)) := by
  have hπ : (0 : ℝ) < Real.pi := Real.pi_pos
  have hdeg : degNorm θ = θ * (180 / Real.pi) :=
    degNorm_eq_self (by linarith) (by linarith)
  have hB : 135 ≤ degNorm θ ∧ degNorm θ < 270 := by
    rw [hdeg]
    exact ⟨rad_le_deg (by linarith), rad_lt_deg (by linarith)⟩
  unfold sectorData
  rw [if_neg (by rw [hdeg]; rintro ⟨hx, hy⟩; have := deg_of_rad_lt hy; linarith),
    if_pos hB]

lemma sectorData_high (s : BuildState) {θ : ℝ} (h1 : 3 * Real.pi / 2 ≤ θ)
    (h2 : θ < 2 * Real.pi) :
    sectorData s θ = (s.intelligence, s.dexterity,
      (θ - ANG_INT_BLUE) / (ANG_DEX_GREEN + 2 * Real.pi - ANG_INT_BLUE)) := by
  have hπ : (0 : ℝ) < Real.pi := Real.pi_pos
  have hdeg : degNorm θ = θ * (180 / Real.pi) :=
    degNorm_eq_self (by linarith) (by linarith)
  unfold sectorData
  rw [if_neg (by rw [hdeg]; rintro ⟨hx, hy⟩; have := deg_of_rad_lt hy; linarith),
    if_neg (by rw [hdeg]; rintro ⟨hx, hy⟩; have := deg_of_rad_lt hy; linarith),
    if_neg (by rw [ANG_INT_BLUE_eq]; linarith)]

lemma sectorData_low0 (s : BuildState) {θ : ℝ} (h1 : 0 ≤ θ)
    (h2 : θ < Real.pi / 4) :
    sectorData s θ = (s.intelligence, s.dexterity,
      (θ + 2 * Real.pi - ANG_INT_BLUE) /
        (ANG_DEX_GREEN + 2 * Real.pi - ANG_INT_BLUE)) := by
  have hπ : (0 : ℝ) < Real.pi := Real.pi_pos
  have hdeg : degNorm θ = θ * (180 / Real.pi) :=
    degNorm_eq_self (by linarith) (by linarith)
  unfold sectorData
  rw [if_neg (by rw [hdeg]; rintro ⟨hx, _⟩; have := deg_of_rad_le hx; linarith),
    if_neg (by rw [hdeg]; rintro ⟨hx, _⟩; have := deg_of_rad_le hx; linarith),
    if_pos (by rw [ANG_INT_BLUE_eq]; linarith)]

lemma sectorData_wrap (s : BuildState) {θ : ℝ} (h1 : 2 * Real.pi ≤ θ)
    (h2 : θ < 2 * Real.pi + Real.pi / 4) :
    sectorData s θ = (s.intelligence, s.dexterity,
      (θ - ANG_INT_BLUE) / (ANG_DEX_GREEN + 2 * Real.pi - ANG_INT_BLUE)) := by
  have hπ : (0 : ℝ) < Real.pi := Real.pi_pos
  have hdeg : degNorm θ = θ * (180 / Real.pi) - 360 :=
    degNorm_eq_sub (by linarith) (by linarith)
  have hup : degNorm θ < 45 := by
    rw [hdeg]
    have : θ * (180 / Real.pi) < 405 := rad_lt_deg (by linarith)
    linarith
  unfold sectorData
  rw [if_neg (by rintro ⟨hx, _⟩; linarith),
    if_neg (by rintro ⟨hx, _⟩; linarith),
    if_neg (by rw [ANG_INT_BLUE_eq]; push_neg; linarith)]

/- Axis mutation, from `stat_control_ui`.  Each button click is one atomic
operation; `current_total` is the sum of the three axes at click time. -/

/-- Selector for the three mutable axis fields of the build. -/
inductive StatAxis
  | strAxis
  | intAxis
  | dexAxis

/-- Read one axis value. -/
def getAxis (s : BuildState) : StatAxis → ℝ
  | StatAxis.strAxis => s.strength
  | StatAxis.intAxis => s.intelligence
  | StatAxis.dexAxis => s.dexterity

/-- Write one axis value. -/
def setAxis (s : BuildState) (a : StatAxis) (v : ℝ) : BuildState :=
  match a with
  | StatAxis.strAxis => { s with strength := v }
  | StatAxis.intAxis => { s with intelligence := v }
  | StatAxis.dexAxis => { s with dexterity := v }

/-- Sum of the three axis values (`total_points` in `update`). -/
def totalPoints (s : BuildState) : ℝ := s.strength + s.intelligence + s.dexterity

/-- Semantics of `f32::clamp(lo, hi)` for `lo ≤ hi`. -/
def clampR (x lo hi : ℝ) : ℝ := max lo (min x hi)

/-- The "-" button of `stat_control_ui`: enabled when `*value > MIN_STAT_VAL`,
then `*value = (*value - 5.0).clamp(MIN_STAT_VAL, MAX_STAT_VAL)`. -/
def decStat (s : BuildState) (a : StatAxis) : BuildState :=
  if MIN_STAT_VAL < getAxis s a then
    setAxis s a (clampR (getAxis s a - 5) MIN_STAT_VAL MAX_STAT_VAL)
  else s

/-- The "+" button of `stat_control_ui`: enabled when both the global
remainder `MAX_TOTAL_POINTS - current_total` and the per-axis remainder
`MAX_STAT_VAL - *value` are positive, then
`*value = (*value + 5.0f32.min(remaining_global)).clamp(MIN_STAT_VAL, MAX_STAT_VAL)`. -/
def incStat (s : BuildState) (a : StatAxis) : BuildState :=
  if 0 < MAX_TOTAL_POINTS - totalPoints s ∧ 0 < MAX_STAT_VAL - getAxis s a then
    setAxis s a
      (clampR (getAxis s a + min 5 (MAX_TOTAL_POINTS - totalPoints s))
        MIN_STAT_VAL MAX_STAT_VAL)
  else s

/-- One adjustment operation: a click of one axis's "+" or "-" button. -/
inductive StatOp
  | inc (a : StatAxis)
  | dec (a : StatAxis)

/-- Apply one adjustment operation. -/
def applyOp (s : BuildState) : StatOp → BuildState
  | StatOp.inc a => incStat s a
  | StatOp.dec a => decStat s a

/-- Apply a sequence of adjustment operations in order. -/
def applyOps (s : BuildState) (ops : List StatOp) : BuildState :=
  ops.foldl applyOp s

/-- The BuildState invariant: every axis in `[MIN_STAT_VAL, MAX_STAT_VAL]`
and the total at most `MAX_TOTAL_POINTS`. -/
def validBuild (s : BuildState) : Prop :=
  MIN_STAT_VAL ≤ s.strength ∧ s.strength ≤ MAX_STAT_VAL ∧
  MIN_STAT_VAL ≤ s.intelligence ∧ s.intelligence ≤ MAX_STAT_VAL ∧
  MIN_STAT_VAL ≤ s.dexterity ∧ s.dexterity ≤ MAX_STAT_VAL ∧
  totalPoints s ≤ MAX_TOTAL_POINTS

/- Perk catalog generation, from `impl Default for StatApp`. -/

/-- The sector table `sectors` from `Default::default` (start angle,
end angle); the third boolean column is unused by the code. -/
def sectors (i : Fin 3) : ℝ × ℝ :=
  if i = 0 then (ANG_DEX_GREEN, ANG_STR_RED)
  else if i = 1 then (ANG_STR_RED, ANG_INT_BLUE)
  else (ANG_INT_BLUE, ANG_DEX_GREEN + 2 * Real.pi)

/-- The closure `generate_safe_point` from `Default::default`.  The three
random draws are passed explicitly: `sector_idx = rng.gen_range(0..3)`,
`t = rng.gen_range(0.0..1.0)`, and the radius draw
`rng.gen_range(lo..hi) = lo + u * (hi - lo)` for a uniform `u ∈ [0,1)`. -/
def generate_safe_point (sector_idx : Fin 3) (t u : ℝ) (pt_name : String)
    (cost min_r_percent : ℝ) : PerkPoint :=
  { name := pt_name
    description := "Passive bonus"
    angle := (sectors sector_idx).1 + t * ((sectors sector_idx).2 - (sectors sector_idx).1)
    radius_val :=
      calculate_ellipse_radius (100 - 90 * t) (10 + 90 * t) t * min_r_percent +
        u * (calculate_ellipse_radius (100 - 90 * t) (10 + 90 * t) t -
          calculate_ellipse_radius (100 - 90 * t) (10 + 90 * t) t * min_r_percent)
    cost := cost }

/-- The nine `fixed_supernovas` entries (name, description, angle, radius). -/
def fixed_supernovas : List (String × String × ℝ × ℝ) :=
  [("Warrior", "Increase area of effect by 30%", ANG_STR_RED, 80),
   ("Ranger", "+ 2 additional projectiles", ANG_DEX_GREEN, 80),
   ("Mage", "Spells chain to 2 additional targets", ANG_INT_BLUE, 80),
   ("Duelist", "Attack speed scales with STR/DEX", (ANG_STR_RED + ANG_DEX_GREEN) / 2, 40),
   ("Monk", "Unarmed strikes stun enemies", (ANG_STR_RED + ANG_DEX_GREEN) / 2, 55),
   ("Ranger-Mage", "Arrows deal 5% more elemental damage",
     (ANG_DEX_GREEN + (ANG_INT_BLUE + 2 * Real.pi)) / 2, 40),
   ("Arcane Trickster", "Teleport on crit",
     (ANG_DEX_GREEN + (ANG_INT_BLUE + 2 * Real.pi)) / 2, 55),
   ("Battlemage", "Gain Energy Shield based on INT", (ANG_INT_BLUE + ANG_STR_RED) / 2, 40),
   ("Paladin", "Heal allies on hit", (ANG_INT_BLUE + ANG_STR_RED) / 2, 55)]

/-- Turn a `fixed_supernovas` row into a `PerkPoint` with cost 10. -/
def mkFixedPerk (row : String × String × ℝ × ℝ) : PerkPoint :=
  { name := row.1, description := row.2.1, angle := row.2.2.1,
    radius_val := row.2.2.2, cost := 10 }

/-- The full catalog built by `Default::default`: nine fixed supernovas,
then 40 "Red Giant" perks (cost 5, floor ratio 0.4), then 300 "Star" perks
(cost 2, floor ratio 0.2).  `draws n` are the three random draws consumed
by the n-th call of `generate_safe_point`. -/
def defaultPerks (draws : ℕ → Fin 3 × ℝ × ℝ) : List PerkPoint :=
  fixed_supernovas.map mkFixedPerk ++
    ((List.range 40).map fun i =>
      generate_safe_point (draws i).1 (draws i).2.1 (draws i).2.2
        ("Red Giant " ++ toString (i + 1)) 5 0.4) ++
    ((List.range 300).map fun i =>
      generate_safe_point (draws (40 + i)).1 (draws (40 + i)).2.1 (draws (40 + i)).2.2
        ("Star " ++ toString (i + 1)) 2 0.2)

/-- The `StatApp` struct from the source. -/
structure StatApp where
  strength : ℝ
  intelligence : ℝ
  dexterity : ℝ
  zoom : ℝ
  offset : ℝ × ℝ
  perks : List PerkPoint

/-- `StatApp::default()`: all axes at `MIN_STAT_VAL`, zoom 1, zero offset,
freshly generated perk catalog. -/
def defaultApp (draws : ℕ → Fin 3 × ℝ × ℝ) : StatApp :=
  { strength := MIN_STAT_VAL, intelligence := MIN_STAT_VAL,
    dexterity := MIN_STAT_VAL, zoom := 1, offset := (0, 0),
    perks := defaultPerks draws }

/-- The Reset button of `StatApp::update`: `*self = Self::default()`, with a
fresh stream of random draws. -/
def resetApp (_old : StatApp) (draws : ℕ → Fin 3 × ℝ × ℝ) : StatApp :=
  defaultApp draws

/-- The maximum radius limit computed by `generate_safe_point` is positive
for every `t ∈ [0,1)`. -/
lemma max_radius_limit_pos (t : ℝ) (ht0 : 0 ≤ t) (ht1 : t < 1) :
    0 < calculate_ellipse_radius (100 - 90 * t) (10 + 90 * t) t := by
  have hπ : (0 : ℝ) < Real.pi := Real.pi_pos
  unfold calculate_ellipse_radius
  rw [if_neg (by push_neg; intro h; nlinarith)]
  apply div_pos
  · nlinarith
  · unfold ellipse_denom
    apply Real.sqrt_pos.2
    have hc : 0 < Real.cos (t * (Real.pi / 2)) := by
      apply Real.cos_pos_of_mem_Ioo
      constructor
      · nlinarith
      · nlinarith
    have hterm : 0 < ((10 + 90 * t) * Real.cos (t * (Real.pi / 2))) ^ 2 := by
      positivity
    nlinarith [sq_nonneg ((100 - 90 * t) * Real.sin (t * (Real.pi / 2)))]

/-- C5: For all axis values `v1` and `v2` (values in the legal stat range
`[MIN_STAT_VAL, MAX_STAT_VAL]`), `calculate_ellipse_radius v1 v2 0 = v1` and
`calculate_ellipse_radius v1 v2 1 = v2`: the interpolation reproduces each
governing axis value exactly at the sector's landmark endpoints. -/
theorem ellipse_radius_endpoints (v1 v2 : ℝ)
    (h1 : MIN_STAT_VAL ≤ v1) (h1' : v1 ≤ MAX_STAT_VAL)
    (h2 : MIN_STAT_VAL ≤ v2) (h2' : v2 ≤ MAX_STAT_VAL) :
    calculate_ellipse_radius v1 v2 0 = v1 ∧ calculate_ellipse_radius v1 v2 1 = v2 := by
  simp only [MIN_STAT_VAL] at h1 h2
  have hg : ¬(v1 < 1 ∧ v2 < 1) := by push_neg; intro h; linarith
  exact ⟨ellipse_at_zero v1 v2 hg (by linarith), ellipse_at_one v1 v2 hg (by linarith)⟩

/-- Witness for `ellipse_radius_endpoints` at `v1 = 80`, `v2 = 30`. -/
theorem ellipse_radius_endpoints_witness :
    calculate_ellipse_radius 80 30 0 = 80 ∧ calculate_ellipse_radius 80 30 1 = 30 :=
  ellipse_radius_endpoints 80 30 (by norm_num [MIN_STAT_VAL])
    (by norm_num [MAX_STAT_VAL]) (by norm_num [MIN_STAT_VAL])
    (by norm_num [MAX_STAT_VAL])

/-- C6 counterexample: at `v = 1/2`, `t = 0` the degeneracy guard fires and
`calculate_ellipse_radius (1/2) (1/2) 0 = 0 ≠ 1/2`, so the claim "for all v,
`ellipse_radius(v, v, t) = v`" fails below the guard threshold. -/
theorem ellipse_circle_guard_counterexample :
    calculate_ellipse_radius (1 / 2) (1 / 2) 0 ≠ 1 / 2 := by
  unfold calculate_ellipse_radius
  rw [if_pos (by norm_num)]
  norm_num

/-- C6 amended: for every `v ≥ 1` and every `t ∈ [0,1]`,
`calculate_ellipse_radius v v t = v` (circle degeneracy); for `0 ≤ v < 1` the
guard returns 0 instead; and `calculate_ellipse_radius 0 0 t = 0` for all `t`. -/
theorem ellipse_circle_degeneracy :
    (∀ v t : ℝ, 1 ≤ v → 0 ≤ t → t ≤ 1 → calculate_ellipse_radius v v t = v) ∧
    (∀ v t : ℝ, 0 ≤ v → v < 1 → calculate_ellipse_radius v v t = 0) ∧
    (∀ t : ℝ, calculate_ellipse_radius 0 0 t = 0) := by
  refine ⟨fun v t hv _ _ => ellipse_circle v t hv, fun v t _ hv => ?_, fun t => ?_⟩
  · unfold calculate_ellipse_radius
    rw [if_pos ⟨hv, hv⟩]
  · unfold calculate_ellipse_radius
    rw [if_pos (by norm_num)]

/-- Witness for `ellipse_circle_degeneracy` at `v = 40`, `t = 1/2`. -/
theorem ellipse_circle_degeneracy_witness :
    calculate_ellipse_radius 40 40 (1 / 2) = 40 :=
  ellipse_circle_degeneracy.1 40 (1 / 2) (by norm_num) (by norm_num) (by norm_num)

/-- C9 counterexample: at `v1 = 5`, `v2 = 0`, `t = 0` the guard branch is not
taken (since `5 ≥ 1`) yet the denominator of the radius formula is 0, so the
claim that the denominator is nonzero for all `v1, v2 ≥ 0` fails. -/
theorem ellipse_denom_zero_counterexample :
    ¬((5 : ℝ) < 1 ∧ (0 : ℝ) < 1) ∧ ellipse_denom 5 0 0 = 0 := by
  constructor
  · norm_num
  · unfold ellipse_denom
    have h0 : (0 : ℝ) * (Real.pi / 2) = 0 := zero_mul _
    rw [h0, Real.cos_zero, Real.sin_zero]
    norm_num [Real.sqrt_zero]

/-- C9 amended: for every `v1 > 0`, `v2 > 0` and `t ∈ [0,1]` the denominator
`sqrt((v2 cos(tπ/2))² + (v1 sin(tπ/2))²)` of the radius formula is nonzero
(the failure cases require one of the two governing values to be exactly 0,
which the guard does not exclude but legal axis values do). -/
theorem ellipse_denom_nonzero (v1 v2 t : ℝ) (h1 : 0 < v1) (h2 : 0 < v2)
    (ht0 : 0 ≤ t) (ht1 : t ≤ 1) : ellipse_denom v1 v2 t ≠ 0 := by
  unfold ellipse_denom
  rw [Real.sqrt_ne_zero']
  by_cases hc : Real.cos (t * (Real.pi / 2)) = 0
  · have hs := Real.sin_sq_add_cos_sq (t * (Real.pi / 2))
    rw [hc] at hs
    have hsq : Real.sin (t * (Real.pi / 2)) ^ 2 = 1 := by linarith
    have hv : (v1 * Real.sin (t * (Real.pi / 2))) ^ 2 = v1 ^ 2 := by
      rw [mul_pow, hsq, mul_one]
    rw [hc, hv]
    nlinarith [sq_nonneg (v2 * (0 : ℝ)), mul_pos h1 h1]
  · have hpos : 0 < (v2 * Real.cos (t * (Real.pi / 2))) ^ 2 := by positivity
    nlinarith [sq_nonneg (v1 * Real.sin (t * (Real.pi / 2)))]

/-- Witness for `ellipse_denom_nonzero` at `v1 = v2 = 10`, `t = 0`. -/
theorem ellipse_denom_nonzero_witness : ellipse_denom 10 10 0 ≠ 0 :=
  ellipse_denom_nonzero 10 10 0 (by norm_num) (by norm_num) (by norm_num) (by norm_num)

/-- C4: Every randomly generated perk has `radius_val` in
`[min_r_percent * max_radius_limit, max_radius_limit)` where
`max_radius_limit = calculate_ellipse_radius (100 - 90t) (10 + 90t) t` is the
linear-envelope limit computed from the perk's own sampled `t`; in particular
`radius_val ≤ max_radius_limit`. -/
theorem generated_radius_in_range (sector_idx : Fin 3) (t u min_r_percent : ℝ)
    (pt_name : String) (cost : ℝ) (ht0 : 0 ≤ t) (ht1 : t < 1)
    (hu0 : 0 ≤ u) (hu1 : u < 1) (hr0 : 0 ≤ min_r_percent) (hr1 : min_r_percent < 1) :
    min_r_percent * calculate_ellipse_radius (100 - 90 * t) (10 + 90 * t) t ≤
      (generate_safe_point sector_idx t u pt_name cost min_r_percent).radius_val ∧
    (generate_safe_point sector_idx t u pt_name cost min_r_percent).radius_val <
      calculate_ellipse_radius (100 - 90 * t) (10 + 90 * t) t ∧
    (generate_safe_point sector_idx t u pt_name cost min_r_percent).radius_val ≤
      calculate_ellipse_radius (100 - 90 * t) (10 + 90 * t) t := by
  have hL := max_radius_limit_pos t ht0 ht1
  set L := calculate_ellipse_radius (100 - 90 * t) (10 + 90 * t) t with hLdef
  simp only [generate_safe_point]
  have hgap : 0 < L - L * min_r_percent := by nlinarith
  have key : 0 ≤ u * (L - L * min_r_percent) := mul_nonneg hu0 hgap.le
  have key2 : L * min_r_percent + u * (L - L * min_r_percent) < L := by
    nlinarith [mul_lt_mul_of_pos_right hu1 hgap]
  exact ⟨by nlinarith, key2, key2.le⟩

/-- Witness for `generated_radius_in_range` at sector 0, `t = u = 0`,
floor ratio 0.4. -/
theorem generated_radius_in_range_witness :
    (0.4 : ℝ) * calculate_ellipse_radius (100 - 90 * 0) (10 + 90 * 0) 0 ≤
      (generate_safe_point 0 0 0 "Red Giant 1" 5 0.4).radius_val ∧
    (generate_safe_point 0 0 0 "Red Giant 1" 5 0.4).radius_val <
      calculate_ellipse_radius (100 - 90 * 0) (10 + 90 * 0) 0 ∧
    (generate_safe_point 0 0 0 "Red Giant 1" 5 0.4).radius_val ≤
      calculate_ellipse_radius (100 - 90 * 0) (10 + 90 * 0) 0 :=
  generated_radius_in_range 0 0 0 0.4 "Red Giant 1" 5 (by norm_num) (by norm_num)
    (by norm_num) (by norm_num) (by norm_num) (by norm_num)

/-- A single adjustment operation preserves the BuildState invariant. -/
lemma applyOp_valid (s : BuildState) (op : StatOp) (h : validBuild s) :
    validBuild (applyOp s op) := by
  have h' := h
  obtain ⟨h1, h2, h3, h4, h5, h6, h7⟩ := h'
  simp only [MIN_STAT_VAL] at h1 h3 h5
  simp only [MAX_STAT_VAL] at h2 h4 h6
  simp only [MAX_TOTAL_POINTS] at h7
  unfold totalPoints at h7
  cases op with
  | dec a =>
    show validBuild (decStat s a)
    unfold decStat
    by_cases hcond : MIN_STAT_VAL < getAxis s a
    case neg => rw [if_neg hcond]; exact h
    case pos =>
      rw [if_pos hcond]
      simp only [MIN_STAT_VAL, MAX_STAT_VAL] at hcond ⊢
      have haxis : (10 : ℝ) ≤ getAxis s a := by cases a <;> simpa [getAxis]
      have hlo : (10 : ℝ) ≤ clampR (getAxis s a - 5) 10 100 := le_max_left _ _
      have hhi : clampR (getAxis s a - 5) 10 100 ≤ 100 :=
        max_le (by norm_num) (min_le_right _ _)
      have hdown : clampR (getAxis s a - 5) 10 100 ≤ getAxis s a :=
        max_le (by linarith) (le_trans (min_le_left _ _) (by linarith))
      cases a <;>
        simp only [setAxis, getAxis, validBuild, totalPoints, MIN_STAT_VAL,
          MAX_STAT_VAL, MAX_TOTAL_POINTS] at hlo hhi hdown haxis ⊢ <;>
        exact ⟨by linarith, by linarith, by linarith, by linarith, by linarith,
          by linarith, by linarith⟩
  | inc a =>
    show validBuild (incStat s a)
    unfold incStat
    by_cases hcond : 0 < MAX_TOTAL_POINTS - totalPoints s ∧ 0 < MAX_STAT_VAL - getAxis s a
    case neg => rw [if_neg hcond]; exact h
    case pos =>
      rw [if_pos hcond]
      obtain ⟨hg, hsr⟩ := hcond
      simp only [MAX_TOTAL_POINTS] at hg
      simp only [MAX_STAT_VAL] at hsr
      unfold totalPoints at hg
      simp only [MIN_STAT_VAL, MAX_STAT_VAL, MAX_TOTAL_POINTS]
      unfold totalPoints
      have haxis : (10 : ℝ) ≤ getAxis s a := by cases a <;> simpa [getAxis]
      set δ := min (5 : ℝ) (120 - (s.strength + s.intelligence + s.dexterity)) with hδdef
      have hδ0 : 0 < δ := lt_min (by norm_num) (by linarith)
      have hδg : δ ≤ 120 - (s.strength + s.intelligence + s.dexterity) := min_le_right _ _
      have hlo : (10 : ℝ) ≤ clampR (getAxis s a + δ) 10 100 := le_max_left _ _
      have hhi : clampR (getAxis s a + δ) 10 100 ≤ 100 :=
        max_le (by norm_num) (min_le_right _ _)
      have hup : clampR (getAxis s a + δ) 10 100 ≤ getAxis s a + δ :=
        max_le (by linarith) (min_le_left _ _)
      cases a <;>
        simp only [setAxis, getAxis, validBuild, totalPoints, MIN_STAT_VAL,
          MAX_STAT_VAL, MAX_TOTAL_POINTS] at hlo hhi hup haxis ⊢ <;>
        exact ⟨by linarith, by linarith, by linarith, by linarith, by linarith,
          by linarith, by linarith⟩

/-- At the dexterity landmark angle the current radius is the dexterity value. -/
lemma radius_at_dex (s : BuildState) (hd : 10 ≤ s.dexterity) (hs : 10 ≤ s.strength) :
    get_current_radius_at_angle s ANG_DEX_GREEN = s.dexterity := by
  have hπ : (0 : ℝ) < Real.pi := Real.pi_pos
  unfold get_current_radius_at_angle
  rw [sectorData_low s (le_of_eq ANG_DEX_GREEN_eq.symm)
    (by rw [ANG_DEX_GREEN_eq]; linarith)]
  dsimp only
  rw [sub_self, zero_div]
  exact ellipse_at_zero _ _ (by push_neg; intro; linarith) (by linarith)

/-- At the strength landmark angle the current radius is the strength value. -/
lemma radius_at_str (s : BuildState) (hs : 10 ≤ s.strength) (hi : 10 ≤ s.intelligence) :
    get_current_radius_at_angle s ANG_STR_RED = s.strength := by
  have hπ : (0 : ℝ) < Real.pi := Real.pi_pos
  unfold get_current_radius_at_angle
  rw [sectorData_mid s (le_of_eq ANG_STR_RED_eq.symm)
    (by rw [ANG_STR_RED_eq]; linarith)]
  dsimp only
  rw [sub_self, zero_div]
  exact ellipse_at_zero _ _ (by push_neg; intro; linarith) (by linarith)

/-- At the intelligence landmark angle the current radius is the intelligence
value. -/
lemma radius_at_int (s : BuildState) (hi : 10 ≤ s.intelligence) (hd : 10 ≤ s.dexterity) :
    get_current_radius_at_angle s ANG_INT_BLUE = s.intelligence := by
  have hπ : (0 : ℝ) < Real.pi := Real.pi_pos
  unfold get_current_radius_at_angle
  rw [sectorData_high s (le_of_eq ANG_INT_BLUE_eq.symm)
    (by rw [ANG_INT_BLUE_eq]; linarith)]
  dsimp only
  rw [sub_self, zero_div]
  exact ellipse_at_zero _ _ (by push_neg; intro; linarith) (by linarith)

/-- C2: a perk is unlocked iff `radius_val ≤ current_radius(angle) + 0.5`
(the test is a pure predicate of the build state and the perk), and a perk at
a governing axis's own landmark angle with `radius_val = 80` is unlocked
exactly when that axis value is at least 79.5, i.e. locked below 79.5. -/
theorem unlock_iff_epsilon (s : BuildState) (p : PerkPoint)
    (hstr : MIN_STAT_VAL ≤ s.strength) (hint : MIN_STAT_VAL ≤ s.intelligence)
    (hdex : MIN_STAT_VAL ≤ s.dexterity) :
    (is_unlocked s p ↔ p.radius_val ≤ get_current_radius_at_angle s p.angle + 0.5) ∧
    (p.angle = ANG_DEX_GREEN → p.radius_val = 80 →
      (is_unlocked s p ↔ 79.5 ≤ s.dexterity)) ∧
    (p.angle = ANG_STR_RED → p.radius_val = 80 →
      (is_unlocked s p ↔ 79.5 ≤ s.strength)) ∧
    (p.angle = ANG_INT_BLUE → p.radius_val = 80 →
      (is_unlocked s p ↔ 79.5 ≤ s.intelligence)) := by
  simp only [MIN_STAT_VAL] at hstr hint hdex
  refine ⟨Iff.rfl, ?_, ?_, ?_⟩
  · intro ha hr
    unfold is_unlocked
    rw [ha, hr, radius_at_dex s hdex hstr]
    constructor <;> intro <;> norm_num at * <;> linarith
  · intro ha hr
    unfold is_unlocked
    rw [ha, hr, radius_at_str s hstr hint]
    constructor <;> intro <;> norm_num at * <;> linarith
  · intro ha hr
    unfold is_unlocked
    rw [ha, hr, radius_at_int s hint hdex]
    constructor <;> intro <;> norm_num at * <;> linarith

/-- Witness for `unlock_iff_epsilon`: the Warrior supernova (STR landmark,
radius 80) against a build with strength 80. -/
theorem unlock_iff_epsilon_witness :
    is_unlocked ⟨80, 10, 10⟩
        ⟨"Warrior", "Increase area of effect by 30%", ANG_STR_RED, 80, 10⟩ ↔
      (79.5 : ℝ) ≤ 80 :=
  (unlock_iff_epsilon ⟨80, 10, 10⟩
    ⟨"Warrior", "Increase area of effect by 30%", ANG_STR_RED, 80, 10⟩
    (by norm_num [MIN_STAT_VAL]) (by norm_num [MIN_STAT_VAL])
    (by norm_num [MIN_STAT_VAL])).2.2.1 rfl rfl

/-- The current radius is monotone in all three axis values. -/
lemma radius_mono (s s' : BuildState) (θ : ℝ)
    (hs1 : 10 ≤ s.strength) (hs2 : 10 ≤ s.intelligence) (hs3 : 10 ≤ s.dexterity)
    (h1 : s.strength ≤ s'.strength) (h2 : s.intelligence ≤ s'.intelligence)
    (h3 : s.dexterity ≤ s'.dexterity) :
    get_current_radius_at_angle s θ ≤ get_current_radius_at_angle s' θ := by
  unfold get_current_radius_at_angle sectorData
  by_cases hA : 45 ≤ degNorm θ ∧ degNorm θ < 135
  · simp only [if_pos hA]
    exact ellipse_mono _ _ _ _ _ hs3 hs1 h3 h1
  · by_cases hB : 135 ≤ degNorm θ ∧ degNorm θ < 270
    · simp only [if_neg hA, if_pos hB]
      exact ellipse_mono _ _ _ _ _ hs1 hs2 h1 h2
    · simp only [if_neg hA, if_neg hB]
      exact ellipse_mono _ _ _ _ _ hs2 hs3 h2 h3

/-- The current radius is never negative for nonnegative axis values. -/
lemma radius_nonneg (s : BuildState) (θ : ℝ) (h1 : 0 ≤ s.strength)
    (h2 : 0 ≤ s.intelligence) (h3 : 0 ≤ s.dexterity) :
    0 ≤ get_current_radius_at_angle s θ := by
  unfold get_current_radius_at_angle sectorData
  by_cases hA : 45 ≤ degNorm θ ∧ degNorm θ < 135
  · simp only [if_pos hA]
    exact ellipse_nonneg _ _ _ h3 h1
  · by_cases hB : 135 ≤ degNorm θ ∧ degNorm θ < 270
    · simp only [if_neg hA, if_pos hB]
      exact ellipse_nonneg _ _ _ h1 h2
    · simp only [if_neg hA, if_neg hB]
      exact ellipse_nonneg _ _ _ h2 h3

/-- C7: unlocking is monotone in the axis values: if a perk is unlocked and
any governing axis value is increased (the others not decreased, all values
within the legal bounds), the perk stays unlocked. -/
theorem unlock_monotone (s s' : BuildState) (p : PerkPoint)
    (hs : validBuild s) (hs' : validBuild s')
    (h1 : s.strength ≤ s'.strength) (h2 : s.intelligence ≤ s'.intelligence)
    (h3 : s.dexterity ≤ s'.dexterity) (hu : is_unlocked s p) : is_unlocked s' p := by
  obtain ⟨a1, -, a3, -, a5, -, -⟩ := hs
  simp only [MIN_STAT_VAL] at a1 a3 a5
  unfold is_unlocked at hu ⊢
  have hmono := radius_mono s s' p.angle a1 a3 a5 h1 h2 h3
  linarith

/-- Witness for `unlock_monotone`: a trivially reachable perk stays unlocked
when nothing changes. -/
theorem unlock_monotone_witness :
    is_unlocked ⟨10, 10, 10⟩ ⟨"Probe", "p", Real.pi / 4, 0, 2⟩ :=
  unlock_monotone ⟨10, 10, 10⟩ ⟨10, 10, 10⟩ ⟨"Probe", "p", Real.pi / 4, 0, 2⟩
    (by norm_num [validBuild, totalPoints, MIN_STAT_VAL, MAX_STAT_VAL, MAX_TOTAL_POINTS])
    (by norm_num [validBuild, totalPoints, MIN_STAT_VAL, MAX_STAT_VAL, MAX_TOTAL_POINTS])
    le_rfl le_rfl le_rfl
    (by
      unfold is_unlocked
      have := radius_nonneg ⟨10, 10, 10⟩ (Real.pi / 4) (by norm_num) (by norm_num)
        (by norm_num)
      dsimp only at this ⊢
      linarith)

/-- C3: starting from a valid BuildState, after every sequence of bounded
increment and decrement operations each axis stays in
`[MIN_STAT_VAL, MAX_STAT_VAL]` and the total stays at most
`MAX_TOTAL_POINTS`: no operation can break either bound. -/
theorem build_mutations_invariant (s : BuildState) (h : validBuild s)
    (ops : List StatOp) : validBuild (applyOps s ops) := by
  induction ops generalizing s with
  | nil => exact h
  | cons op rest ih => exact ih (applyOp s op) (applyOp_valid s op h)

/-- Witness for `build_mutations_invariant`: the initial build with one
increment of strength. -/
theorem build_mutations_invariant_witness :
    validBuild (applyOps ⟨10, 10, 10⟩ [StatOp.inc StatAxis.strAxis]) :=
  build_mutations_invariant ⟨10, 10, 10⟩
    (by norm_num [validBuild, totalPoints, MIN_STAT_VAL, MAX_STAT_VAL, MAX_TOTAL_POINTS])
    [StatOp.inc StatAxis.strAxis]

/-- C1: sector resolution partitions the normalized degree range `[0, 360)`
exactly, with no gap or overlap, into the three half-open sectors
`[45, 135)`, `[135, 270)` and the wraparound `[270, 360) ∪ [0, 45)` (widths
90°, 135°, 135°); in each sector the governing axis pair and the local
parameter are exactly as specified, with `t = (deg - 45)/90`,
`t = (deg - 135)/135`, and `t = (deg' - 270)/135` where `deg'` adds 360 when
the angle is below 270°; and in every case `t ∈ [0, 1]`. -/
theorem sector_partition_exact (s : BuildState) (θ : ℝ) (h0 : 0 ≤ θ)
    (hlt : θ < 2 * Real.pi) :
    (0 ≤ degNorm θ ∧ degNorm θ < 360) ∧
    ((45 ≤ degNorm θ ∧ degNorm θ < 135) ∨ (135 ≤ degNorm θ ∧ degNorm θ < 270) ∨
      (degNorm θ < 45 ∨ 270 ≤ degNorm θ)) ∧
    ¬((45 ≤ degNorm θ ∧ degNorm θ < 135) ∧ (135 ≤ degNorm θ ∧ degNorm θ < 270)) ∧
    ¬((45 ≤ degNorm θ ∧ degNorm θ < 135) ∧ (degNorm θ < 45 ∨ 270 ≤ degNorm θ)) ∧
    ¬((135 ≤ degNorm θ ∧ degNorm θ < 270) ∧ (degNorm θ < 45 ∨ 270 ≤ degNorm θ)) ∧
    ((45 ≤ degNorm θ ∧ degNorm θ < 135) →
      sectorData s θ = (s.dexterity, s.strength, (degNorm θ - 45) / 90)) ∧
    ((135 ≤ degNorm θ ∧ degNorm θ < 270) →
      sectorData s θ = (s.strength, s.intelligence, (degNorm θ - 135) / 135)) ∧
    ((degNorm θ < 45 ∨ 270 ≤ degNorm θ) →
      sectorData s θ = (s.intelligence, s.dexterity,
        ((if degNorm θ < 270 then degNorm θ + 360 else degNorm θ) - 270) / 135)) ∧
    0 ≤ (sectorData s θ).2.2 ∧ (sectorData s θ).2.2 ≤ 1 := by
  have hπ : (0 : ℝ) < Real.pi := Real.pi_pos
  have hπ' : Real.pi ≠ 0 := ne_of_gt hπ
  have hdeg : degNorm θ = θ * (180 / Real.pi) := degNorm_eq_self h0 hlt
  have hd0 : 0 ≤ degNorm θ := by rw [hdeg]; positivity
  have hd360 : degNorm θ < 360 := by
    rw [hdeg]
    exact rad_lt_deg (by linarith [show (360 : ℝ) * Real.pi / 180 = 2 * Real.pi from by ring])
  have hcover : (45 ≤ degNorm θ ∧ degNorm θ < 135) ∨
      (135 ≤ degNorm θ ∧ degNorm θ < 270) ∨ (degNorm θ < 45 ∨ 270 ≤ degNorm θ) := by
    rcases lt_or_le (degNorm θ) 45 with h1 | h1
    · exact Or.inr (Or.inr (Or.inl h1))
    rcases lt_or_le (degNorm θ) 135 with h2 | h2
    · exact Or.inl ⟨h1, h2⟩
    rcases lt_or_le (degNorm θ) 270 with h3 | h3
    · exact Or.inr (Or.inl ⟨h2, h3⟩)
    · exact Or.inr (Or.inr (Or.inr h3))
  have hA_rad : 45 ≤ degNorm θ ∧ degNorm θ < 135 →
      Real.pi / 4 ≤ θ ∧ θ < 3 * Real.pi / 4 := by
    intro hA
    rw [hdeg] at hA
    constructor
    · have := deg_of_rad_le hA.1
      linarith [show (45 : ℝ) * Real.pi / 180 = Real.pi / 4 from by ring]
    · have := deg_of_rad_lt hA.2
      linarith [show (135 : ℝ) * Real.pi / 180 = 3 * Real.pi / 4 from by ring]
  have hB_rad : 135 ≤ degNorm θ ∧ degNorm θ < 270 →
      3 * Real.pi / 4 ≤ θ ∧ θ < 3 * Real.pi / 2 := by
    intro hB
    rw [hdeg] at hB
    constructor
    · have := deg_of_rad_le hB.1
      linarith [show (135 : ℝ) * Real.pi / 180 = 3 * Real.pi / 4 from by ring]
    · have := deg_of_rad_lt hB.2
      linarith [show (270 : ℝ) * Real.pi / 180 = 3 * Real.pi / 2 from by ring]
  have hClo_rad : degNorm θ < 45 → θ < Real.pi / 4 := by
    intro hc
    rw [hdeg] at hc
    have := deg_of_rad_lt hc
    linarith [show (45 : ℝ) * Real.pi / 180 = Real.pi / 4 from by ring]
  have hChi_rad : 270 ≤ degNorm θ → 3 * Real.pi / 2 ≤ θ := by
    intro hc
    rw [hdeg] at hc
    have := deg_of_rad_le hc
    linarith [show (270 : ℝ) * Real.pi / 180 = 3 * Real.pi / 2 from by ring]
  have heq1 : (45 ≤ degNorm θ ∧ degNorm θ < 135) →
      sectorData s θ = (s.dexterity, s.strength, (degNorm θ - 45) / 90) := by
    intro hA
    obtain ⟨hr1, hr2⟩ := hA_rad hA
    rw [sectorData_low s hr1 hr2, hdeg]
    simp only [Prod.mk.injEq]
    refine ⟨trivial, trivial, ?_⟩
    rw [ANG_DEX_GREEN_eq, ANG_STR_RED_eq]
    rw [div_eq_div_iff (by linarith) (by norm_num)]
    field_simp
    ring
  have heq2 : (135 ≤ degNorm θ ∧ degNorm θ < 270) →
      sectorData s θ = (s.strength, s.intelligence, (degNorm θ - 135) / 135) := by
    intro hB
    obtain ⟨hr1, hr2⟩ := hB_rad hB
    rw [sectorData_mid s hr1 hr2, hdeg]
    simp only [Prod.mk.injEq]
    refine ⟨trivial, trivial, ?_⟩
    rw [ANG_STR_RED_eq, ANG_INT_BLUE_eq]
    rw [div_eq_div_iff (by linarith) (by norm_num)]
    field_simp
    ring
  have heq3 : (degNorm θ < 45 ∨ 270 ≤ degNorm θ) →
      sectorData s θ = (s.intelligence, s.dexterity,
        ((if degNorm θ < 270 then degNorm θ + 360 else degNorm θ) - 270) / 135) := by
    intro hC
    rcases hC with hc | hc
    · have hθ : θ < Real.pi / 4 := hClo_rad hc
      rw [sectorData_low0 s h0 hθ, if_pos (by linarith : degNorm θ < 270), hdeg]
      simp only [Prod.mk.injEq]
      refine ⟨trivial, trivial, ?_⟩
      rw [ANG_DEX_GREEN_eq, ANG_INT_BLUE_eq]
      rw [div_eq_div_iff (by linarith) (by norm_num)]
      field_simp
      ring
    · have hθ : 3 * Real.pi / 2 ≤ θ := hChi_rad hc
      rw [sectorData_high s hθ hlt, if_neg (not_lt.2 hc), hdeg]
      simp only [Prod.mk.injEq]
      refine ⟨trivial, trivial, ?_⟩
      rw [ANG_DEX_GREEN_eq, ANG_INT_BLUE_eq]
      rw [div_eq_div_iff (by linarith) (by norm_num)]
      field_simp
      ring
  have htr : 0 ≤ (sectorData s θ).2.2 ∧ (sectorData s θ).2.2 ≤ 1 := by
    rcases hcover with hA | hB | hC
    · obtain ⟨hr1, hr2⟩ := hA_rad hA
      rw [sectorData_low s hr1 hr2]
      dsimp only
      rw [ANG_DEX_GREEN_eq, ANG_STR_RED_eq]
      constructor
      · apply div_nonneg <;> linarith
      · rw [div_le_one (by linarith)]
        linarith
    · obtain ⟨hr1, hr2⟩ := hB_rad hB
      rw [sectorData_mid s hr1 hr2]
      dsimp only
      rw [ANG_STR_RED_eq, ANG_INT_BLUE_eq]
      constructor
      · apply div_nonneg <;> linarith
      · rw [div_le_one (by linarith)]
        linarith
    · rcases hC with hc | hc
      · have hθ : θ < Real.pi / 4 := hClo_rad hc
        rw [sectorData_low0 s h0 hθ]
        dsimp only
        rw [ANG_DEX_GREEN_eq, ANG_INT_BLUE_eq]
        constructor
        · apply div_nonneg <;> linarith
        · rw [div_le_one (by linarith)]
          linarith
      · have hθ : 3 * Real.pi / 2 ≤ θ := hChi_rad hc
        rw [sectorData_high s hθ hlt]
        dsimp only
        rw [ANG_DEX_GREEN_eq, ANG_INT_BLUE_eq]
        constructor
        · apply div_nonneg <;> linarith
        · rw [div_le_one (by linarith)]
          linarith
  refine ⟨⟨hd0, hd360⟩, hcover, ?_, ?_, ?_, heq1, heq2, heq3, htr⟩
  · rintro ⟨⟨-, hb⟩, ⟨hc, -⟩⟩
    linarith
  · rintro ⟨⟨ha, hb⟩, hC⟩
    rcases hC with h | h <;> linarith
  · rintro ⟨⟨ha, hb⟩, hC⟩
    rcases hC with h | h <;> linarith

/-- Witness for `sector_partition_exact` at the 90° direction. -/
theorem sector_partition_exact_witness :
    0 ≤ degNorm (Real.pi / 2) ∧ degNorm (Real.pi / 2) < 360 :=
  (sector_partition_exact ⟨10, 10, 10⟩ (Real.pi / 2) (by positivity)
    (by linarith [Real.pi_pos])).1

/-- C10: perks generated in the wraparound sector carry a raw angle in
`[270°, 405°)` (radians `[3π/2, 2π + π/4)`), and for every angle in that
range `get_current_radius_at_angle` returns the same radius as for the
equivalent normalized angle (the angle modulo 360°), for every build state. -/
theorem wraparound_angle_radius (s : BuildState) (θ : ℝ)
    (h1 : 3 * Real.pi / 2 ≤ θ) (h2 : θ < 2 * Real.pi + Real.pi / 4) :
    get_current_radius_at_angle s θ =
      get_current_radius_at_angle s (remEuclid θ (2 * Real.pi)) ∧
    ∀ t u : ℝ, ∀ nm : String, ∀ c r : ℝ, 0 ≤ t → t < 1 →
      3 * Real.pi / 2 ≤ (generate_safe_point 2 t u nm c r).angle ∧
      (generate_safe_point 2 t u nm c r).angle < 2 * Real.pi + Real.pi / 4 := by
  have hπ : (0 : ℝ) < Real.pi := Real.pi_pos
  constructor
  · rcases lt_or_le θ (2 * Real.pi) with hcase | hcase
    · rw [remEuclid_eq_self (by linarith) (by linarith) hcase]
    · have hrem : remEuclid θ (2 * Real.pi) = θ - 2 * Real.pi :=
        remEuclid_eq_sub (by linarith) hcase (by linarith)
      rw [hrem]
      unfold get_current_radius_at_angle
      rw [sectorData_wrap s hcase h2, sectorData_low0 s (by linarith) (by linarith),
        show θ - 2 * Real.pi + 2 * Real.pi - ANG_INT_BLUE = θ - ANG_INT_BLUE from by ring]
  · intro t u nm c r ht0 ht1
    have hsec : sectors 2 = (ANG_INT_BLUE, ANG_DEX_GREEN + 2 * Real.pi) := by
      unfold sectors
      rw [if_neg (by decide), if_neg (by decide)]
    unfold generate_safe_point
    dsimp only
    rw [hsec]
    dsimp only
    rw [ANG_INT_BLUE_eq, ANG_DEX_GREEN_eq]
    have hmul : t * (Real.pi / 4 + 2 * Real.pi - 3 * Real.pi / 2) <
        1 * (Real.pi / 4 + 2 * Real.pi - 3 * Real.pi / 2) :=
      mul_lt_mul_of_pos_right ht1 (by linarith)
    have hmul0 : 0 ≤ t * (Real.pi / 4 + 2 * Real.pi - 3 * Real.pi / 2) :=
      mul_nonneg ht0 (by linarith)
    constructor
    · linarith
    · linarith

/-- Witness for `wraparound_angle_radius` at the 360° direction. -/
theorem wraparound_angle_radius_witness :
    get_current_radius_at_angle ⟨10, 10, 10⟩ (2 * Real.pi) =
      get_current_radius_at_angle ⟨10, 10, 10⟩ (remEuclid (2 * Real.pi) (2 * Real.pi)) :=
  (wraparound_angle_radius ⟨10, 10, 10⟩ (2 * Real.pi)
    (by linarith [Real.pi_pos]) (by linarith [Real.pi_pos])).1

/-- C8 counterexample: pressing Reset replaces the whole app with
`Self::default()`, which re-runs the random catalog generation; with fresh
random draws the first Red Giant lands at a different angle, so the perk
catalog after Reset differs from the original catalog. -/
theorem reset_regenerates_catalog :
    (resetApp (defaultApp fun _ => ((0 : Fin 3), 0, 0))
        fun _ => ((0 : Fin 3), 1 / 2, 0)).perks ≠
      (defaultApp fun _ => ((0 : Fin 3), 0, 0)).perks := by
  have hπ : (0 : ℝ) < Real.pi := Real.pi_pos
  have key : ∀ dr : ℕ → Fin 3 × ℝ × ℝ,
      ((defaultPerks dr)[9]?).map PerkPoint.angle =
        some ((sectors (dr 0).1).1 +
          (dr 0).2.1 * ((sectors (dr 0).1).2 - (sectors (dr 0).1).1)) := by
    intro dr
    unfold defaultPerks
    rw [List.append_assoc,
      List.getElem?_append_right (by simp [fixed_supernovas])]
    have h0 : 9 - (fixed_supernovas.map mkFixedPerk).length = 0 := by
      simp [fixed_supernovas]
    rw [h0, List.getElem?_append_left (by simp)]
    simp [List.getElem?_map, List.getElem?_range, generate_safe_point]
  intro h
  have h9 := congrArg (fun l => (l[9]?).map PerkPoint.angle) h
  dsimp only at h9
  simp only [resetApp, defaultApp] at h9
  rw [key, key] at h9
  simp only [Option.some.injEq] at h9
  have hsec : sectors 0 = (ANG_DEX_GREEN, ANG_STR_RED) := by
    unfold sectors
    rw [if_pos rfl]
  rw [hsec] at h9
  dsimp only at h9
  rw [ANG_DEX_GREEN_eq, ANG_STR_RED_eq] at h9
  norm_num at h9
  linarith

/-- C8 amended: Reset restores all three axes to `MIN_STAT_VAL` and
reproduces the nine fixed supernova perks unchanged, but it re-runs the
random generator, so the 340 randomly placed perks are re-sampled rather
than preserved (see the counterexample). -/
theorem reset_restores_axes_fixed_perks (old : StatApp)
    (draws : ℕ → Fin 3 × ℝ × ℝ) :
    (resetApp old draws).strength = MIN_STAT_VAL ∧
    (resetApp old draws).intelligence = MIN_STAT_VAL ∧
    (resetApp old draws).dexterity = MIN_STAT_VAL ∧
    (resetApp old draws).perks.take 9 = fixed_supernovas.map mkFixedPerk := by
  refine ⟨rfl, rfl, rfl, ?_⟩
  have hlen : (fixed_supernovas.map mkFixedPerk).length = 9 := by
    simp [fixed_supernovas]
  simp only [resetApp, defaultApp, defaultPerks]
  rw [List.append_assoc, List.take_append_of_le_length (by rw [hlen]),
    ← hlen, List.take_length]
